import Mathlib

/-!
Verification development for the campus energy-use dashboard
(src/energy_dashboard.py).

Shallow embedding conventions:
* Timestamps are modelled at hour resolution, as whole hours since a fixed
  epoch midnight.  The epoch day (day 0) is a Thursday, matching the 1970
  epoch that anchors the weekly resampling bucket (week ending Sunday).
* kwh values are modelled as rationals; pandas NaN (a failed numeric
  coercion, or a missing cell) and NaT (a failed timestamp parse) are
  modelled as Option.none, mirroring errors .eq. coerce followed by dropna.
* Library results that Python represents with dynamic columns are modelled
  with per-row Option fields: the date and hour columns that
  calculate_daily_totals and find_peak_hours assign onto the data frame in
  place are Option Nat fields of a row, none meaning the column is absent.
* Functions that mutate their data-frame argument in place are embedded in
  state-passing style: they return the (possibly updated) data frame
  together with the computed view.
-/

/-- Hour of day (0-23) of a timestamp, mirroring the pandas dt.hour accessor
used by find_peak_hours. -/
def hourOf (t : Nat) : Nat := t % 24

/-- Calendar date (day index since the epoch) of a timestamp, mirroring the
pandas dt.date accessor used by calculate_daily_totals. -/
def dateOf (t : Nat) : Nat := t / 24

/-- Calendar-week bucket of a timestamp under the resample W (= W-SUN)
anchor: day 0 is a Thursday, so day d belongs to the week ending on Sunday
day 7 * ((d + 3) / 7) + 3; we use the week index (d + 3) / 7. -/
def weekOf (t : Nat) : Nat := (dateOf t + 3) / 7

/-- One raw CSV row of a source, after the two library conversions applied
by ingest_data: ts is the result of pd.to_datetime(timestamp,
errors=coerce) with none modelling NaT, and kwh is the result of
pd.to_numeric(kwh, errors=coerce) (also covering a NaN already produced by
read_csv) with none modelling NaN.  A negative numeric value is represented
by a negative rational: nothing in the code maps it to none. -/
structure RawRow where
  ts : Option Nat
  kwh : Option ℚ
  deriving DecidableEq, Repr

/-- One CSV source file: its filename stem, whether read_csv succeeds on it
(readable = false models FileNotFoundError or any other exception), and
whether the timestamp and kwh columns are present. -/
structure Source where
  name : String
  readable : Bool
  hasTimestampCol : Bool
  hasKwhCol : Bool
  rows : List RawRow
  deriving DecidableEq, Repr

/-- One row of the canonical (combined) data frame: timestamp, kwh, the
building tag added during ingestion, and the two optional columns that the
aggregation functions later assign in place (none = column absent). -/
structure Row where
  timestamp : Nat
  kwh : ℚ
  building : String
  date : Option Nat := none
  hour : Option Nat := none
  deriving DecidableEq, Repr

/-- Per-source body of the ingestion loop: none models the paths that
append the file to failed_files (an exception while reading, or a missing
required column); some gives the cleaned per-source row list, in which a
row survives exactly when its timestamp parsed and its kwh coerced to a
number (the two dropna calls), tagged with the building name. -/
def processSource (s : Source) : Option (List Row) :=
  if s.readable ∧ s.hasTimestampCol ∧ s.hasKwhCol then
    some (s.rows.filterMap fun rr =>
      match rr.ts, rr.kwh with
      | some t, some k => some { timestamp := t, kwh := k, building := s.name }
      | _, _ => none)
  else none

/-- Comparison used by sort_values on the timestamp column. -/
def rowLe (r1 r2 : Row) : Bool := r1.timestamp ≤ r2.timestamp

/-- Insertion of an element into a sorted list: placed before the first
element it compares le to. -/
def insertSorted {α : Type} (le : α → α → Bool) (x : α) : List α → List α
  | [] => [x]
  | y :: ys => if le x y then x :: y :: ys else y :: insertSorted le x ys

/-- Stable insertion sort, used to model the sorting steps of the program
(sort_values on the timestamp column, and the sorted group keys produced by
groupby).  Structural recursion keeps every concrete run kernel-computable. -/
def sortBy {α : Type} (le : α → α → Bool) : List α → List α
  | [] => []
  | x :: xs => insertSorted le x (sortBy le xs)

/-- Ingestion: process every source in order; a failed source goes to
failed_files, a successful one appends its (possibly empty) cleaned frame
to combined_data.  If combined_data is empty (no source succeeded) the
dataset is None; otherwise the frames are concatenated and sorted by
timestamp.  The embedding uses a stable sort for sort_values; the pandas
default sort kind is quicksort, whose tie order is not specified, but every
property proved below other than tie order is insensitive to which
timestamp-sorted permutation is produced. -/
def ingest_data (sources : List Source) : Option (List Row) × List String :=
  let combined := sources.filterMap processSource
  let failed := (sources.filter fun s => (processSource s).isNone).map Source.name
  if combined.isEmpty then (none, failed)
  else (some (sortBy rowLe combined.flatten), failed)

/-- Ordering on strings used to model the sorted group keys that pandas
groupby produces for the building column. -/
def strLe (a b : String) : Bool := (compare a b).isLE

/-- Distinct building names of a data frame in sorted order: the group keys
of groupby(building). -/
def buildingsOf (df : List Row) : List String :=
  sortBy strLe (df.map Row.building).dedup

/-- Rows of one building, in frame order (a pandas group preserves the
original row order within the group). -/
def rowsOf (df : List Row) (b : String) : List Row :=
  df.filter fun r => r.building = b

/-- Ordering on (date, building) pairs for the daily-totals group keys. -/
def dateBuildingLe (k1 k2 : Nat × String) : Bool :=
  if k1.1 = k2.1 then strLe k1.2 k2.2 else k1.1 < k2.1

/-- Daily totals: assigns the date column onto the input frame in place
(df[date] = df.timestamp.dt.date), then groups by (date, building) and sums
kwh.  Returns the updated frame together with the view. -/
def calculate_daily_totals (df : List Row) :
    List Row × List (Nat × String × ℚ) :=
  let df2 := df.map fun r => { r with date := some (dateOf r.timestamp) }
  let keys := sortBy dateBuildingLe (df2.map fun r => (dateOf r.timestamp, r.building)).dedup
  (df2, keys.map fun k =>
    (k.1, k.2,
      ((df2.filter fun r => dateOf r.timestamp = k.1 ∧ r.building = k.2).map Row.kwh).sum))

/-- One output row of calculate_weekly_aggregates: building, week bucket,
and the four aggregates.  On an empty bucket pandas produces sum 0 and NaN
mean, max and min; the NaNs are modelled as none. -/
structure WeekAgg where
  building : String
  week : Nat
  total : ℚ
  mean : Option ℚ
  max : Option ℚ
  min : Option ℚ
  deriving DecidableEq, Repr

/-- Kwh values of one building falling in one week bucket. -/
def weekRows (df : List Row) (b : String) (w : Nat) : List ℚ :=
  ((rowsOf df b).filter fun r => weekOf r.timestamp = w).map Row.kwh

/-- Week buckets that resample(W) emits for one building: every week index
from the week of the building's earliest row to the week of its latest row,
inclusive, including empty buckets in between. -/
def weeksOf (df : List Row) (b : String) : List Nat :=
  match (rowsOf df b).map fun r => weekOf r.timestamp with
  | [] => []
  | w :: ws => List.range' (ws.foldl min w) (ws.foldl max w - ws.foldl min w + 1)

/-- Weekly aggregates: works on a copy (df.copy()), so the input frame is
returned unchanged; for each building the rows are resampled into weekly
buckets and sum, mean, max, min of kwh are computed per bucket. -/
def calculate_weekly_aggregates (df : List Row) : List Row × List WeekAgg :=
  (df, (buildingsOf df).flatMap fun b =>
    (weeksOf df b).map fun w =>
      { building := b, week := w, total := (weekRows df b w).sum,
        mean := if (weekRows df b w).isEmpty then none
                else some ((weekRows df b w).sum / (weekRows df b w).length),
        max := (weekRows df b w).max?, min := (weekRows df b w).min? })

/-- One output row of building_wise_summary.  Every building present in the
frame has at least one row, so in the program max and min are always real
numbers; the embedding keeps them as Option (max? / min? of the group). -/
structure BuildingSummary where
  building : String
  total_kwh : ℚ
  mean_kwh : ℚ
  max_kwh : Option ℚ
  min_kwh : Option ℚ
  readings_count : Nat
  deriving DecidableEq, Repr

/-- Building-wise summary: groups solely by building and computes total,
mean, max, min and count of kwh.  Does not touch the input frame. -/
def building_wise_summary (df : List Row) : List Row × List BuildingSummary :=
  (df, (buildingsOf df).map fun b =>
    let ks := (rowsOf df b).map Row.kwh
    { building := b, total_kwh := ks.sum, mean_kwh := ks.sum / ks.length,
      max_kwh := ks.max?, min_kwh := ks.min?, readings_count := ks.length })

/-- First maximum of a list under a key function, mirroring both the Python
builtin max(xs, key=f) and pandas idxmax: the running maximum is replaced
only on a strictly greater key, so among ties the earliest element wins. -/
def firstMaxBy {α : Type} (f : α → ℚ) : List α → Option α
  | [] => none
  | x :: xs => some (xs.foldl (fun cur y => if f cur < f y then y else cur) x)

/-- Kwh values of one building at one hour of day. -/
def hourRows (df : List Row) (b : String) (h : Nat) : List ℚ :=
  ((rowsOf df b).filter fun r => hourOf r.timestamp = h).map Row.kwh

/-- Mean kwh of one building at one hour of day (only used at hours where
the building has at least one row, so the group is nonempty). -/
def hourlyMean (df : List Row) (b : String) (h : Nat) : ℚ :=
  (hourRows df b h).sum / (hourRows df b h).length

/-- Hours of day at which a building has at least one row, ascending: the
hour part of the groupby((building, hour)) keys for this building.  Every
hour value is below 24, so filtering the range gives exactly the distinct
present hours in the sorted order pandas produces. -/
def hoursOf (df : List Row) (b : String) : List Nat :=
  (List.range 24).filter fun h => !(hourRows df b h).isEmpty

/-- Peak hour of one building: idxmax over the (hour-ascending) rows of the
per-hour mean series, i.e. the first hour attaining the maximal mean. -/
def peakHourOf (df : List Row) (b : String) : Option (Nat × ℚ) :=
  (firstMaxBy (hourlyMean df b) (hoursOf df b)).map fun h => (h, hourlyMean df b h)

/-- Peak hours: assigns the hour column onto the input frame in place
(df[hour] = df.timestamp.dt.hour), groups by (building, hour) with mean
kwh, and for each building keeps the row selected by idxmax.  Returns the
updated frame together with the view of (building, hour, mean kwh). -/
def find_peak_hours (df : List Row) : List Row × List (String × Nat × ℚ) :=
  let df2 := df.map fun r => { r with hour := some (hourOf r.timestamp) }
  (df2, (buildingsOf df).filterMap fun b =>
    (peakHourOf df b).map fun p => (b, p.1, p.2))

/-- One meter reading of the domain model (class MeterReading). -/
structure MeterReading where
  timestamp : Nat
  kwh : ℚ
  deriving DecidableEq, Repr

/-- One building of the domain model (class Building): a name and the
ordered list of appended readings. -/
structure Building where
  name : String
  meter_readings : List MeterReading
  deriving DecidableEq, Repr

/-- Append one reading (Building.add_reading). -/
def Building.add_reading (b : Building) (t : Nat) (k : ℚ) : Building :=
  { b with meter_readings := b.meter_readings ++ [MeterReading.mk t k] }

/-- Sum of kwh over the readings (Building.calculate_total_consumption). -/
def Building.calculate_total_consumption (b : Building) : ℚ :=
  (b.meter_readings.map MeterReading.kwh).sum

/-- Average kwh, defined as 0 on an empty readings list
(Building.calculate_average_consumption). -/
def Building.calculate_average_consumption (b : Building) : ℚ :=
  if b.meter_readings.isEmpty then 0
  else b.calculate_total_consumption / b.meter_readings.length

/-- Peak reading: None on an empty readings list, otherwise the Python
max(readings, key=kwh), which keeps the first reading among kwh ties
(Building.get_peak_consumption). -/
def Building.get_peak_consumption (b : Building) : Option MeterReading :=
  if b.meter_readings.isEmpty then none
  else firstMaxBy MeterReading.kwh b.meter_readings

/-- Domain-model construction step of main(): one Building per distinct
building name, populated by add_reading from that building's canonical rows
in frame order. -/
def buildingFromData (df : List Row) (b : String) : Building :=
  (rowsOf df b).foldl (fun bld r => bld.add_reading r.timestamp r.kwh)
    (Building.mk b [])

/-! Concrete inputs used by the counterexamples and witnesses below. -/

/-- Readable source with both columns whose only row has a parseable
timestamp and a negative numeric kwh. -/
def srcC1 : Source :=
  { name := "A", readable := true, hasTimestampCol := true,
    hasKwhCol := true, rows := [{ ts := some 5, kwh := some (-3) }] }

/-- Readable source with both columns and one ordinary valid row. -/
def srcW1 : Source :=
  { name := "A", readable := true, hasTimestampCol := true,
    hasKwhCol := true, rows := [{ ts := some 5, kwh := some 7 }] }

/-- Readable source with both columns whose only row has an unparseable
timestamp, so every row is dropped by row-level validation. -/
def srcC2 : Source :=
  { name := "A", readable := true, hasTimestampCol := true,
    hasKwhCol := true, rows := [{ ts := none, kwh := some 1 }] }

/-- Readable source missing the kwh column. -/
def srcC7bad : Source :=
  { name := "NoKwh", readable := true, hasTimestampCol := true,
    hasKwhCol := false, rows := [{ ts := some 1, kwh := some 2 }] }

/-- Readable source with both columns all of whose rows fail row-level
validation (unparseable timestamp or non-numeric kwh). -/
def srcC7drop : Source :=
  { name := "AllDropped", readable := true, hasTimestampCol := true,
    hasKwhCol := true,
    rows := [{ ts := none, kwh := some 2 }, { ts := some 3, kwh := none }] }

/-- One-row canonical frame (no date or hour column yet). -/
def dfC4 : List Row := [{ timestamp := 0, kwh := 1, building := "A" }]

/-- Frame realising Scenario E: building A has hourly means 50 at hour 14,
50 at hour 20 (tie) and 1 at hour 2. -/
def dfC5 : List Row :=
  [{ timestamp := 14, kwh := 50, building := "A" },
   { timestamp := 20, kwh := 50, building := "A" },
   { timestamp := 2, kwh := 1, building := "A" }]

/-- Frame whose building A has rows in week 0 (timestamp 0, day 0) and
week 2 (timestamp 336, day 14) but none in week 1. -/
def dfC6 : List Row :=
  [{ timestamp := 0, kwh := 2, building := "A" },
   { timestamp := 336, kwh := 4, building := "A" }]

/-- Two-building frame used to witness the summary sum invariants. -/
def dfC8 : List Row :=
  [{ timestamp := 0, kwh := 10, building := "A" },
   { timestamp := 1, kwh := 20, building := "B" },
   { timestamp := 2, kwh := 5, building := "A" }]

/-- Building with a kwh tie between its second and third readings. -/
def bW9 : Building :=
  { name := "B", meter_readings := [⟨0, 5⟩, ⟨1, 9⟩, ⟨2, 9⟩] }

/-! Helper lemmas. -/

/-- Specification of firstMaxBy on a nonempty list: it returns an element
maximal under f, and every element strictly before it in the list has a
strictly smaller key, so among ties the earliest element wins. -/
theorem firstMaxBy_cons {α : Type} (f : α → ℚ) (x : α) (xs : List α) :
    ∃ r l1 l2, firstMaxBy f (x :: xs) = some r ∧ x :: xs = l1 ++ r :: l2 ∧
      (∀ y ∈ x :: xs, f y ≤ f r) ∧ ∀ y ∈ l1, f y < f r := by
  induction xs generalizing x with
  | nil =>
      refine ⟨x, [], [], rfl, rfl, ?_, ?_⟩
      · intro y hy
        rcases List.mem_singleton.mp hy with rfl
        exact le_refl _
      · intro y hy
        exact absurd hy (List.not_mem_nil y)
  | cons z zs ih =>
      by_cases hxz : f x < f z
      · obtain ⟨r, l1, l2, hr, hdec, hmax, hlt⟩ := ih z
        have hstep : firstMaxBy f (x :: z :: zs) = firstMaxBy f (z :: zs) := by
          simp [firstMaxBy, hxz]
        have hzr : f z ≤ f r := hmax z (List.mem_cons_self z zs)
        refine ⟨r, x :: l1, l2, hstep.trans hr, by simp [hdec], ?_, ?_⟩
        · intro y hy
          rcases List.mem_cons.mp hy with rfl | hy
          · exact le_of_lt (lt_of_lt_of_le hxz hzr)
          · exact hmax y hy
        · intro y hy
          rcases List.mem_cons.mp hy with rfl | hy
          · exact lt_of_lt_of_le hxz hzr
          · exact hlt y hy
      · obtain ⟨r, l1, l2, hr, hdec, hmax, hlt⟩ := ih x
        have hstep : firstMaxBy f (x :: z :: zs) = firstMaxBy f (x :: zs) := by
          simp [firstMaxBy, hxz]
        have hzx : f z ≤ f x := le_of_not_lt hxz
        cases l1 with
        | nil =>
            rw [List.nil_append] at hdec
            injection hdec with hx hl
            subst hx
            subst hl
            refine ⟨x, [], z :: zs, hstep.trans hr, rfl, ?_, ?_⟩
            · intro y hy
              rcases List.mem_cons.mp hy with rfl | hy
              · exact le_refl _
              · rcases List.mem_cons.mp hy with rfl | hy
                · exact hzx
                · exact hmax y (List.mem_cons_of_mem _ hy)
            · intro y hy
              exact absurd hy (List.not_mem_nil y)
        | cons a l1t =>
            rw [List.cons_append] at hdec
            injection hdec with hx hl
            subst hx
            have hrmax : f x < f r := hlt x (List.mem_cons_self x l1t)
            refine ⟨r, x :: z :: l1t, l2, hstep.trans hr, by simp [hl], ?_, ?_⟩
            · intro y hy
              rcases List.mem_cons.mp hy with rfl | hy
              · exact hmax y (List.mem_cons_self y zs)
              · rcases List.mem_cons.mp hy with rfl | hy
                · exact hzx.trans (hmax x (List.mem_cons_self x zs))
                · exact hmax y (List.mem_cons_of_mem _ hy)
            · intro y hy
              rcases List.mem_cons.mp hy with rfl | hy
              · exact hrmax
              · rcases List.mem_cons.mp hy with rfl | hy
                · exact lt_of_le_of_lt hzx hrmax
                · exact hlt y (List.mem_cons_of_mem _ hy)

/-- Inserting an element permutes to consing it. -/
theorem insertSorted_perm {α : Type} (le : α → α → Bool) (x : α) (l : List α) :
    (insertSorted le x l).Perm (x :: l) := by
  induction l with
  | nil => exact List.Perm.refl _
  | cons y ys ih =>
      unfold insertSorted
      by_cases h : le x y
      · rw [if_pos h]
      · rw [if_neg h]
        exact (ih.cons y).trans (List.Perm.swap x y ys)

/-- Sorting permutes its input. -/
theorem sortBy_perm {α : Type} (le : α → α → Bool) (l : List α) :
    (sortBy le l).Perm l := by
  induction l with
  | nil => exact List.Perm.refl _
  | cons x xs ih =>
      exact (insertSorted_perm le x (sortBy le xs)).trans (ih.cons x)

/-- Membership is preserved by sorting. -/
theorem sortBy_mem {α : Type} {le : α → α → Bool} {a : α} {l : List α} :
    a ∈ sortBy le l ↔ a ∈ l :=
  (sortBy_perm le l).mem_iff

/-- Inversion of a successful per-source result: the source was readable
with both columns, and every produced row carries the source name and stems
from a raw row whose timestamp parsed and whose kwh coerced to a number. -/
theorem processSource_mem {s : Source} {l : List Row} {r : Row}
    (hl : processSource s = some l) (hr : r ∈ l) :
    s.readable = true ∧ s.hasTimestampCol = true ∧ s.hasKwhCol = true ∧
      s.name = r.building ∧
      RawRow.mk (some r.timestamp) (some r.kwh) ∈ s.rows := by
  unfold processSource at hl
  split at hl
  next hc =>
    obtain ⟨h1, h2, h3⟩ := hc
    injection hl with hl
    subst hl
    obtain ⟨rr, hrr, hconv⟩ := List.mem_filterMap.mp hr
    rcases rr with ⟨ts, kwh⟩
    cases ts with
    | none => simp at hconv
    | some t =>
      cases kwh with
      | none => simp at hconv
      | some k =>
        injection hconv with hconv
        subst hconv
        exact ⟨h1, h2, h3, rfl, hrr⟩
  next => simp at hl

/-- Loop body on a structurally valid source all of whose raw rows fail
row-level validation: an empty frame is still produced. -/
theorem processSource_all_dropped {s : Source}
    (h1 : s.readable = true) (h2 : s.hasTimestampCol = true)
    (h3 : s.hasKwhCol = true)
    (hrows : ∀ rr ∈ s.rows, rr.ts = none ∨ rr.kwh = none) :
    processSource s = some [] := by
  unfold processSource
  rw [if_pos ⟨h1, h2, h3⟩]
  congr 1
  rw [List.filterMap_eq_nil_iff]
  intro rr hrr
  rcases rr with ⟨ts, kwh⟩
  rcases hrows _ hrr with h | h <;> simp_all

/-- The failure list of ingest_data is the list of names of the sources on
which the loop body failed, in source order. -/
theorem ingest_data_snd (sources : List Source) :
    (ingest_data sources).snd =
      (sources.filter fun s => (processSource s).isNone).map Source.name := by
  unfold ingest_data
  by_cases hc : (sources.filterMap processSource).isEmpty <;> simp [hc]

/-- Inversion of a returned dataset: it is the timestamp-sorted flattening
of the per-source frames, and at least one source succeeded. -/
theorem ingest_data_fst_some {sources : List Source} {df : List Row}
    (h : (ingest_data sources).fst = some df) :
    df = sortBy rowLe (sources.filterMap processSource).flatten ∧
      (sources.filterMap processSource).isEmpty = false := by
  unfold ingest_data at h
  by_cases hc : (sources.filterMap processSource).isEmpty
  · simp [hc] at h
  · simp [hc] at h
    exact ⟨h.symm, by simp [hc]⟩

/-- Under pairwise distinct source names, a source whose loop body yields
no row contributes no row to any returned dataset. -/
theorem no_rows_of_empty_contribution {sources : List Source} {s : Source}
    (hs : s ∈ sources) (hnd : (sources.map Source.name).Nodup)
    (hempty : ∀ l, processSource s = some l → l = [])
    {df : List Row} (hdf : (ingest_data sources).fst = some df) :
    ∀ r ∈ df, r.building ≠ s.name := by
  intro r hr hbad
  obtain ⟨hdfeq, -⟩ := ingest_data_fst_some hdf
  rw [hdfeq, sortBy_mem] at hr
  obtain ⟨l, hl, hrl⟩ := List.mem_flatten.mp hr
  obtain ⟨s2, hs2, hs2l⟩ := List.mem_filterMap.mp hl
  obtain ⟨-, -, -, hname, -⟩ := processSource_mem hs2l hrl
  have heq : s2 = s :=
    List.inj_on_of_nodup_map hnd hs2 hs (by rw [hname, hbad])
  subst heq
  have := hempty l hs2l
  subst this
  exact absurd hrl (List.not_mem_nil r)

/-! Claim theorems. -/

/-- Claim C9: for a Building with a nonempty readings list,
get_peak_consumption returns a reading r that is maximal in kwh, and every
reading stored before r has strictly smaller kwh, i.e. among kwh ties the
first reading in stored (append) order is returned. -/
theorem C9_peak (b : Building) (h : b.meter_readings ≠ []) :
    ∃ r l1 l2, b.get_peak_consumption = some r ∧
      b.meter_readings = l1 ++ r :: l2 ∧
      (∀ x ∈ b.meter_readings, x.kwh ≤ r.kwh) ∧
      ∀ x ∈ l1, x.kwh < r.kwh := by
  rcases hx : b.meter_readings with _ | ⟨x, xs⟩
  · exact absurd hx h
  · obtain ⟨r, l1, l2, hr, hdec, hmax, hlt⟩ :=
      firstMaxBy_cons MeterReading.kwh x xs
    refine ⟨r, l1, l2, ?_, hdec, hmax, hlt⟩
    unfold Building.get_peak_consumption
    rw [hx]
    simpa using hr

/-- Witness for C9 at the concrete building bW9: the returned peak is the
second reading (kwh 9), not the later tied one. -/
theorem C9_witness :
    ∃ r l1 l2, bW9.get_peak_consumption = some r ∧
      bW9.meter_readings = l1 ++ r :: l2 ∧
      (∀ x ∈ bW9.meter_readings, x.kwh ≤ r.kwh) ∧
      ∀ x ∈ l1, x.kwh < r.kwh :=
  C9_peak bW9 (by decide)

/-- Claim C10: on a Building with zero readings, total consumption is 0,
average consumption is 0 (no division-by-zero failure), and the peak
reading is none. -/
theorem C10_empty_building (n : String) :
    (Building.mk n []).calculate_total_consumption = 0 ∧
    (Building.mk n []).calculate_average_consumption = 0 ∧
    (Building.mk n []).get_peak_consumption = none :=
  ⟨rfl, rfl, rfl⟩

/-- Claim C1 fails on the code: ingest_data never filters negative kwh
values, so the dataset returned for srcC1 contains a row with kwh -3
(timestamp parsed, value numeric but negative). -/
theorem C1_counterexample :
    ∃ rows, (ingest_data [srcC1]).fst = some rows ∧ ∃ r ∈ rows, r.kwh < 0 :=
  ⟨[{ timestamp := 5, kwh := -3, building := "A" }], by decide,
    { timestamp := 5, kwh := -3, building := "A" }, by decide, by decide⟩

/-- Claim C1 (amended): every row of a dataset returned by ingest_data has
a non-null (parsed) timestamp and a numeric kwh: it originates from a
readable source having both required columns, whose name is the row's
building tag, and in whose raw rows a row with exactly that parsed
timestamp and that numeric kwh occurs; rows whose timestamp fails to parse
or whose kwh fails numeric coercion never appear.  Negative kwh values,
however, are not dropped (C1_counterexample). -/
theorem C1_provenance (sources : List Source) (df : List Row)
    (fs : List String) (hout : ingest_data sources = (some df, fs))
    (r : Row) (hr : r ∈ df) :
    ∃ s ∈ sources, s.readable = true ∧ s.hasTimestampCol = true ∧
      s.hasKwhCol = true ∧ s.name = r.building ∧
      RawRow.mk (some r.timestamp) (some r.kwh) ∈ s.rows := by
  have h1 : (ingest_data sources).fst = some df := by rw [hout]
  obtain ⟨hdfeq, -⟩ := ingest_data_fst_some h1
  rw [hdfeq, sortBy_mem] at hr
  obtain ⟨l, hl, hrl⟩ := List.mem_flatten.mp hr
  obtain ⟨s, hs, hsl⟩ := List.mem_filterMap.mp hl
  obtain ⟨ha, hb, hc, hd, he⟩ := processSource_mem hsl hrl
  exact ⟨s, hs, ha, hb, hc, hd, he⟩

/-- Witness for C1_provenance on the one-source, one-row input srcW1. -/
theorem C1_witness :
    ∃ s ∈ [srcW1], s.readable = true ∧ s.hasTimestampCol = true ∧
      s.hasKwhCol = true ∧ s.name = "A" ∧
      RawRow.mk (some 5) (some 7) ∈ s.rows :=
  C1_provenance [srcW1] [{ timestamp := 5, kwh := 7, building := "A" }] []
    (by decide) { timestamp := 5, kwh := 7, building := "A" } (by decide)

/-- Claim C2 fails on the code: srcC2 is structurally valid but every row
is dropped by row-level validation; combined_data then holds one empty
frame, which is truthy as a list, so ingest_data returns an empty dataset
(some []) with an empty failure list instead of reporting failure. -/
theorem C2_counterexample :
    (ingest_data [srcC2]).fst = some [] ∧ (ingest_data [srcC2]).snd = [] := by
  decide

/-- Claim C2 (amended): ingest_data produces no dataset exactly when no
source is processed successfully, i.e. every source is unreadable or lacks
a required column; whenever at least one source passes structural
validation, a dataset is returned even if it contains zero rows. -/
theorem C2_none_iff (sources : List Source) :
    (ingest_data sources).fst = none ↔ ∀ s ∈ sources, processSource s = none := by
  have hiff : (sources.filterMap processSource).isEmpty = true ↔
      ∀ s ∈ sources, processSource s = none := by
    rw [List.isEmpty_iff]
    exact List.filterMap_eq_nil_iff
  unfold ingest_data
  by_cases hc : (sources.filterMap processSource).isEmpty
  · rw [if_pos hc]
    simpa using hiff.mp hc
  · rw [if_neg hc]
    constructor
    · intro h
      simp at h
    · intro hall
      exact absurd (hiff.mpr hall) hc

/-- Claim C7: under pairwise distinct source names (filename stems in one
directory), a readable source missing a required column is rejected whole:
its name is in the failure list and no dataset row carries its building
tag; a readable source with both columns whose rows all fail row-level
validation also contributes zero rows, yet its name is absent from the
failure list. -/
theorem C7_structural_vs_row (sources : List Source) (s : Source)
    (hs : s ∈ sources) (hnd : (sources.map Source.name).Nodup) :
    ((s.readable = true ∧ ¬(s.hasTimestampCol = true ∧ s.hasKwhCol = true)) →
       s.name ∈ (ingest_data sources).snd ∧
       ∀ df, (ingest_data sources).fst = some df →
         ∀ r ∈ df, r.building ≠ s.name) ∧
    ((s.readable = true ∧ s.hasTimestampCol = true ∧ s.hasKwhCol = true ∧
       ∀ rr ∈ s.rows, rr.ts = none ∨ rr.kwh = none) →
       s.name ∉ (ingest_data sources).snd ∧
       ∀ df, (ingest_data sources).fst = some df →
         ∀ r ∈ df, r.building ≠ s.name) := by
  constructor
  · rintro ⟨h1, hmiss⟩
    have hps : processSource s = none := by
      unfold processSource
      rw [if_neg]
      rintro ⟨-, h2, h3⟩
      exact hmiss ⟨h2, h3⟩
    constructor
    · rw [ingest_data_snd]
      exact List.mem_map.mpr
        ⟨s, List.mem_filter.mpr ⟨hs, by simp [hps]⟩, rfl⟩
    · intro df hdf
      exact no_rows_of_empty_contribution hs hnd
        (fun l hl => by rw [hps] at hl; exact absurd hl (by simp)) hdf
  · rintro ⟨h1, h2, h3, hrows⟩
    have hps : processSource s = some [] :=
      processSource_all_dropped h1 h2 h3 hrows
    constructor
    · rw [ingest_data_snd]
      intro hmem
      obtain ⟨s2, hs2mem, hs2name⟩ := List.mem_map.mp hmem
      obtain ⟨hs2src, hs2none⟩ := List.mem_filter.mp hs2mem
      have heq : s2 = s := List.inj_on_of_nodup_map hnd hs2src hs hs2name
      subst heq
      rw [hps] at hs2none
      simp at hs2none
    · intro df hdf
      exact no_rows_of_empty_contribution hs hnd
        (fun l hl => by rw [hps] at hl; injection hl with hl; exact hl.symm)
        hdf

/-- Witness for C7 at a concrete pair of sources: srcC7bad lacks the kwh
column, srcC7drop has both columns but every row dropped. -/
theorem C7_witness :
    (srcC7bad.name ∈ (ingest_data [srcC7bad, srcC7drop]).snd ∧
       ∀ df, (ingest_data [srcC7bad, srcC7drop]).fst = some df →
         ∀ r ∈ df, r.building ≠ srcC7bad.name) ∧
    (srcC7drop.name ∉ (ingest_data [srcC7bad, srcC7drop]).snd ∧
       ∀ df, (ingest_data [srcC7bad, srcC7drop]).fst = some df →
         ∀ r ∈ df, r.building ≠ srcC7drop.name) :=
  ⟨(C7_structural_vs_row [srcC7bad, srcC7drop] srcC7bad (by decide)
      (by decide)).1 (by decide),
   (C7_structural_vs_row [srcC7bad, srcC7drop] srcC7drop (by decide)
      (by decide)).2 (by decide)⟩

/-- Claim C4 fails on the code: calculate_daily_totals and find_peak_hours
mutate the canonical dataset in place, adding a date (resp. hour) column
that was not present before the call. -/
theorem C4_counterexample :
    (calculate_daily_totals dfC4).fst ≠ dfC4 ∧
    (find_peak_hours dfC4).fst ≠ dfC4 := by decide

/-- Claim C4 (amended): calculate_weekly_aggregates and
building_wise_summary return the dataset unchanged; calculate_daily_totals
and find_peak_hours return the same rows in the same order with timestamp,
kwh, building and the other optional column untouched, but with the date
(resp. hour) column assigned in place. -/
theorem C4_frame (df : List Row) :
    (calculate_weekly_aggregates df).fst = df ∧
    (building_wise_summary df).fst = df ∧
    ((calculate_daily_totals df).fst.map fun r =>
        (r.timestamp, r.kwh, r.building, r.hour))
      = (df.map fun r => (r.timestamp, r.kwh, r.building, r.hour)) ∧
    ((calculate_daily_totals df).fst.map Row.date)
      = (df.map fun r => some (dateOf r.timestamp)) ∧
    ((find_peak_hours df).fst.map fun r =>
        (r.timestamp, r.kwh, r.building, r.date))
      = (df.map fun r => (r.timestamp, r.kwh, r.building, r.date)) ∧
    ((find_peak_hours df).fst.map Row.hour)
      = (df.map fun r => some (hourOf r.timestamp)) := by
  refine ⟨rfl, rfl, ?_, ?_, ?_, ?_⟩ <;>
    simp [calculate_daily_totals, find_peak_hours, Function.comp]

/-- Hours-of-day list of a building is strictly increasing. -/
theorem hoursOf_sorted (df : List Row) (b : String) :
    (hoursOf df b).Pairwise (· < ·) :=
  (List.pairwise_lt_range 24).filter _

/-- Every row of a building puts its hour of day among the building's
grouped hours. -/
theorem hourOf_mem_hoursOf {df : List Row} {b : String} {r : Row}
    (hr : r ∈ df) (hb : r.building = b) :
    hourOf r.timestamp ∈ hoursOf df b := by
  unfold hoursOf
  rw [List.mem_filter]
  refine ⟨List.mem_range.mpr (Nat.mod_lt _ (by decide)), ?_⟩
  have hmem : r.kwh ∈ hourRows df b (hourOf r.timestamp) := by
    unfold hourRows rowsOf
    exact List.mem_map.mpr
      ⟨r, List.mem_filter.mpr ⟨List.mem_filter.mpr ⟨hr, by simp [hb]⟩, by simp⟩,
        rfl⟩
  simpa [List.isEmpty_iff] using List.ne_nil_of_mem hmem

/-- Membership in the sorted distinct building keys. -/
theorem mem_buildingsOf {df : List Row} {b : String} :
    b ∈ buildingsOf df ↔ ∃ r ∈ df, r.building = b := by
  simp [buildingsOf, sortBy_mem, List.mem_dedup]

/-- Claim C5: for every building present in the canonical dataset,
find_peak_hours selects a single hour whose mean kwh for that building is
maximal, and among all present hours attaining that maximal mean it selects
the lowest-numbered one; the result is determined by the data alone since
the grouped hours are traversed in ascending order. -/
theorem C5_peak_hour (df : List Row) (b : String) (hb : b ∈ buildingsOf df) :
    ∃ h m, peakHourOf df b = some (h, m) ∧
      (b, h, m) ∈ (find_peak_hours df).snd ∧
      h ∈ hoursOf df b ∧ m = hourlyMean df b h ∧
      (∀ h2 ∈ hoursOf df b, hourlyMean df b h2 ≤ m) ∧
      (∀ h2 ∈ hoursOf df b, hourlyMean df b h2 = m → h ≤ h2) := by
  obtain ⟨r, hrdf, hrb⟩ := mem_buildingsOf.mp hb
  have hne : hourOf r.timestamp ∈ hoursOf df b := hourOf_mem_hoursOf hrdf hrb
  have hsort := hoursOf_sorted df b
  rcases hhrs : hoursOf df b with _ | ⟨x, xs⟩
  · rw [hhrs] at hne
    exact absurd hne (List.not_mem_nil _)
  · obtain ⟨h0, l1, l2, hfm, hdec, hmax, hlt⟩ :=
      firstMaxBy_cons (hourlyMean df b) x xs
    have hpk : peakHourOf df b = some (h0, hourlyMean df b h0) := by
      unfold peakHourOf
      rw [hhrs, hfm]
      rfl
    refine ⟨h0, hourlyMean df b h0, hpk, ?_, ?_, rfl, ?_, ?_⟩
    · unfold find_peak_hours
      exact List.mem_filterMap.mpr ⟨b, hb, by rw [hpk]; rfl⟩
    · rw [hdec]
      exact List.mem_append.mpr (Or.inr (List.mem_cons_self _ _))
    · exact hmax
    · intro h2 hh2 heq
      rw [hdec] at hh2
      rw [hhrs, hdec] at hsort
      rcases List.mem_append.mp hh2 with hl1 | hl2
      · exact absurd heq (ne_of_lt (hlt h2 hl1))
      · rcases List.mem_cons.mp hl2 with rfl | hl2
        · exact le_refl _
        · obtain ⟨-, hp2, -⟩ := List.pairwise_append.mp hsort
          rw [List.pairwise_cons] at hp2
          exact le_of_lt (hp2.1 h2 hl2)

/-- Witness for C5 on Scenario E data: building A has mean 50 at hours 14
and 20 (tie) and mean 1 at hour 2; hour 14 is selected. -/
theorem C5_witness :
    ∃ h m, peakHourOf dfC5 "A" = some (h, m) ∧
      (("A", h, m) : String × Nat × ℚ) ∈ (find_peak_hours dfC5).snd ∧
      h ∈ hoursOf dfC5 "A" ∧ m = hourlyMean dfC5 "A" h ∧
      (∀ h2 ∈ hoursOf dfC5 "A", hourlyMean dfC5 "A" h2 ≤ m) ∧
      (∀ h2 ∈ hoursOf dfC5 "A", hourlyMean dfC5 "A" h2 = m → h ≤ h2) :=
  C5_peak_hour dfC5 "A" (by decide)

/-- Folded minimum is below the seed. -/
theorem foldl_min_le_init (l : List Nat) (a : Nat) : l.foldl min a ≤ a := by
  induction l generalizing a with
  | nil => exact le_refl a
  | cons x xs ih => exact le_trans (ih (min a x)) (min_le_left a x)

/-- Folded minimum is below every element. -/
theorem foldl_min_le_mem (l : List Nat) (a : Nat) :
    ∀ x ∈ l, l.foldl min a ≤ x := by
  induction l generalizing a with
  | nil =>
      intro x hx
      exact absurd hx (List.not_mem_nil x)
  | cons y ys ih =>
      intro x hx
      rcases List.mem_cons.mp hx with rfl | hx
      · exact le_trans (foldl_min_le_init ys (min a x)) (min_le_right a x)
      · exact ih (min a y) x hx

/-- Folded minimum is the seed or an element. -/
theorem foldl_min_mem (l : List Nat) (a : Nat) :
    l.foldl min a = a ∨ l.foldl min a ∈ l := by
  induction l generalizing a with
  | nil => exact Or.inl rfl
  | cons y ys ih =>
      rcases ih (min a y) with h | h
      · rcases Nat.le_total a y with h2 | h2
        · exact Or.inl (by rw [List.foldl_cons, h, Nat.min_eq_left h2])
        · refine Or.inr ?_
          rw [List.foldl_cons, h, Nat.min_eq_right h2]
          exact List.mem_cons_self y ys
      · exact Or.inr (List.mem_cons_of_mem y (by rw [List.foldl_cons]; exact h))

/-- Folded maximum is above the seed. -/
theorem foldl_max_ge_init (l : List Nat) (a : Nat) : a ≤ l.foldl max a := by
  induction l generalizing a with
  | nil => exact le_refl a
  | cons x xs ih => exact le_trans (Nat.le_max_left a x) (ih (max a x))

/-- Folded maximum is above every element. -/
theorem foldl_max_ge_mem (l : List Nat) (a : Nat) :
    ∀ x ∈ l, x ≤ l.foldl max a := by
  induction l generalizing a with
  | nil =>
      intro x hx
      exact absurd hx (List.not_mem_nil x)
  | cons y ys ih =>
      intro x hx
      rcases List.mem_cons.mp hx with rfl | hx
      · exact le_trans (Nat.le_max_right a x) (foldl_max_ge_init ys (max a x))
      · exact ih (max a y) x hx

/-- Folded maximum is the seed or an element. -/
theorem foldl_max_mem (l : List Nat) (a : Nat) :
    l.foldl max a = a ∨ l.foldl max a ∈ l := by
  induction l generalizing a with
  | nil => exact Or.inl rfl
  | cons y ys ih =>
      rcases ih (max a y) with h | h
      · rcases Nat.le_total a y with h2 | h2
        · refine Or.inr ?_
          rw [List.foldl_cons, h, Nat.max_eq_right h2]
          exact List.mem_cons_self y ys
        · exact Or.inl (by rw [List.foldl_cons, h, Nat.max_eq_left h2])
      · exact Or.inr (List.mem_cons_of_mem y (by rw [List.foldl_cons]; exact h))

/-- Characterisation of the emitted week buckets of a present building:
exactly the weeks between the building's first and last week, inclusive
(resample emits the full closed range, empty buckets included). -/
theorem mem_weeksOf {df : List Row} {b : String} (hb : b ∈ buildingsOf df)
    (w : Nat) :
    w ∈ weeksOf df b ↔
      (∃ r1 ∈ rowsOf df b, weekOf r1.timestamp ≤ w) ∧
      ∃ r2 ∈ rowsOf df b, w ≤ weekOf r2.timestamp := by
  obtain ⟨r, hrdf, hrb⟩ := mem_buildingsOf.mp hb
  have hrmem : r ∈ rowsOf df b := List.mem_filter.mpr ⟨hrdf, by simp [hrb]⟩
  rcases hrows : rowsOf df b with _ | ⟨p, ps⟩
  · rw [hrows] at hrmem
    exact absurd hrmem (List.not_mem_nil r)
  · have hunf : weeksOf df b =
        List.range' ((ps.map fun r3 => weekOf r3.timestamp).foldl min
            (weekOf p.timestamp))
          ((ps.map fun r3 => weekOf r3.timestamp).foldl max
              (weekOf p.timestamp) -
            (ps.map fun r3 => weekOf r3.timestamp).foldl min
              (weekOf p.timestamp) + 1) := by
      unfold weeksOf
      rw [hrows, List.map_cons]
    rw [hunf, List.mem_range'_1]
    have hlow : ∀ x ∈ p :: ps,
        (ps.map fun r3 => weekOf r3.timestamp).foldl min (weekOf p.timestamp) ≤
          weekOf x.timestamp := by
      intro x hx
      rcases List.mem_cons.mp hx with rfl | hx
      · exact foldl_min_le_init _ _
      · exact foldl_min_le_mem _ _ _ (List.mem_map_of_mem _ hx)
    have hhigh : ∀ x ∈ p :: ps,
        weekOf x.timestamp ≤
          (ps.map fun r3 => weekOf r3.timestamp).foldl max (weekOf p.timestamp) := by
      intro x hx
      rcases List.mem_cons.mp hx with rfl | hx
      · exact foldl_max_ge_init _ _
      · exact foldl_max_ge_mem _ _ _ (List.mem_map_of_mem _ hx)
    have hlohi :
        (ps.map fun r3 => weekOf r3.timestamp).foldl min (weekOf p.timestamp) ≤
          (ps.map fun r3 => weekOf r3.timestamp).foldl max (weekOf p.timestamp) :=
      le_trans (foldl_min_le_init _ _) (foldl_max_ge_init _ _)
    constructor
    · rintro ⟨hle, hlt⟩
      constructor
      · rcases foldl_min_mem (ps.map fun r3 => weekOf r3.timestamp)
            (weekOf p.timestamp) with hc | hc
        · exact ⟨p, List.mem_cons_self p ps, by rw [← hc]; exact hle⟩
        · obtain ⟨r3, hr3, hr3w⟩ := List.mem_map.mp hc
          exact ⟨r3, List.mem_cons_of_mem p hr3, by rw [hr3w]; exact hle⟩
      · rcases foldl_max_mem (ps.map fun r3 => weekOf r3.timestamp)
            (weekOf p.timestamp) with hc | hc
        · exact ⟨p, List.mem_cons_self p ps, by rw [← hc]; omega⟩
        · obtain ⟨r3, hr3, hr3w⟩ := List.mem_map.mp hc
          exact ⟨r3, List.mem_cons_of_mem p hr3, by rw [hr3w]; omega⟩
    · rintro ⟨⟨r1, hr1, h1⟩, r2, hr2, h2⟩
      have ha := hlow r1 hr1
      have hb2 := hhigh r2 hr2
      omega

/-- Week buckets are pairwise distinct. -/
theorem weeksOf_nodup (df : List Row) (b : String) : (weeksOf df b).Nodup := by
  unfold weeksOf
  split
  · exact List.nodup_nil
  · exact List.nodup_range' _ _

/-- Building keys are pairwise distinct. -/
theorem buildingsOf_nodup (df : List Row) : (buildingsOf df).Nodup :=
  ((sortBy_perm strLe ((df.map Row.building).dedup)).symm).nodup
    (List.nodup_dedup _)

/-- countP distributes over flatMap as a sum of per-piece counts. -/
theorem countP_flatMap {α β : Type} (p : β → Bool) (f : α → List β)
    (l : List α) :
    (l.flatMap f).countP p = (l.map fun x => (f x).countP p).sum := by
  induction l with
  | nil => rfl
  | cons x xs ih =>
      rw [List.flatMap_cons, List.countP_append, List.map_cons, List.sum_cons,
        ih]

/-- Sum of a map that vanishes away from one key of a duplicate-free list. -/
theorem sum_map_single {α : Type} [DecidableEq α] (keys : List α)
    (g : α → Nat) (b : α) (hnd : keys.Nodup)
    (hz : ∀ x ∈ keys, x ≠ b → g x = 0) :
    (keys.map g).sum = if b ∈ keys then g b else 0 := by
  induction keys with
  | nil => rfl
  | cons k ks ih =>
      rw [List.map_cons, List.sum_cons]
      obtain ⟨hk, hnd2⟩ := List.nodup_cons.mp hnd
      have ih2 := ih hnd2 fun x hx hxb => hz x (List.mem_cons_of_mem _ hx) hxb
      by_cases hkb : k = b
      · subst hkb
        rw [ih2, if_neg hk, if_pos (List.mem_cons_self _ _)]
        omega
      · rw [hz k (List.mem_cons_self _ _) hkb, ih2]
        have hbk : b ≠ k := fun h => hkb h.symm
        simp [List.mem_cons, hbk]

/-- Membership in the weekly view. -/
theorem mem_weeklyAgg {df : List Row} {a : WeekAgg} :
    a ∈ (calculate_weekly_aggregates df).snd ↔
      ∃ b ∈ buildingsOf df, ∃ w ∈ weeksOf df b,
        a = { building := b, week := w, total := (weekRows df b w).sum,
              mean := if (weekRows df b w).isEmpty then none
                      else some ((weekRows df b w).sum / (weekRows df b w).length),
              max := (weekRows df b w).max?, min := (weekRows df b w).min? } := by
  unfold calculate_weekly_aggregates
  simp only [List.mem_flatMap, List.mem_map]
  constructor
  · rintro ⟨b, hbb, w, hw, rfl⟩
    exact ⟨b, hbb, w, hw, rfl⟩
  · rintro ⟨b, hbb, w, hw, rfl⟩
    exact ⟨b, hbb, w, hw, rfl⟩

/-- Claim C6 fails on the code: for dfC6, building A has rows only in weeks
0 and 2, yet the weekly view emits a row for the empty week-1 bucket, with
total 0 and null mean, max and min (resample emits the full closed range of
weekly bins, empty ones included). -/
theorem C6_counterexample :
    (⟨"A", 1, 0, none, none, none⟩ : WeekAgg) ∈
      (calculate_weekly_aggregates dfC6).snd ∧
    ∀ r ∈ dfC6, ¬(r.building = "A" ∧ weekOf r.timestamp = 1) := by decide

/-- Claim C6 (amended): for every building present in the dataset, the
weekly view emits exactly one row per week bucket from the building's first
week to its last week inclusive, and no row outside that range; a bucket in
the range with zero rows is emitted as a zero/null placeholder (total 0,
mean, max, min null), while a nonempty bucket carries the sum, mean, max
and min of its kwh values. -/
theorem C6_weekly (df : List Row) (b : String) (w : Nat)
    (hb : b ∈ buildingsOf df) :
    ((calculate_weekly_aggregates df).snd.countP
        (fun a => a.building == b && a.week == w) =
      if w ∈ weeksOf df b then 1 else 0) ∧
    (w ∈ weeksOf df b ↔
      (∃ r1 ∈ rowsOf df b, weekOf r1.timestamp ≤ w) ∧
      ∃ r2 ∈ rowsOf df b, w ≤ weekOf r2.timestamp) ∧
    ∀ a ∈ (calculate_weekly_aggregates df).snd, a.building = b → a.week = w →
      (weekRows df b w = [] → a = ⟨b, w, 0, none, none, none⟩) ∧
      (weekRows df b w ≠ [] →
        a.total = (weekRows df b w).sum ∧
        a.mean = some ((weekRows df b w).sum / (weekRows df b w).length) ∧
        a.max = (weekRows df b w).max? ∧ a.min = (weekRows df b w).min?) := by
  refine ⟨?_, mem_weeksOf hb w, ?_⟩
  · unfold calculate_weekly_aggregates
    rw [countP_flatMap]
    rw [sum_map_single (buildingsOf df) _ b (buildingsOf_nodup df) ?later]
    case later =>
      intro b2 hb2 hb2b
      rw [List.countP_map]
      apply List.countP_eq_zero.mpr
      intro w2 hw2
      simp [Function.comp, hb2b]
    rw [if_pos hb, List.countP_map]
    have hcnt : ((weeksOf df b).countP
        ((fun a => a.building == b && a.week == w) ∘ fun w2 =>
          ({ building := b, week := w2, total := (weekRows df b w2).sum,
             mean := if (weekRows df b w2).isEmpty then none
                     else some ((weekRows df b w2).sum / (weekRows df b w2).length),
             max := (weekRows df b w2).max?,
             min := (weekRows df b w2).min? } : WeekAgg)))
        = List.count w (weeksOf df b) := by
      apply List.countP_congr
      intro w2 hw2
      simp [Function.comp]
    rw [hcnt]
    by_cases hw : w ∈ weeksOf df b
    · rw [if_pos hw, List.count_eq_one_of_mem (weeksOf_nodup df b) hw]
    · rw [if_neg hw, List.count_eq_zero_of_not_mem hw]
  · intro a ha hab haw
    obtain ⟨b2, hb2, w2, hw2, haeq⟩ := mem_weeklyAgg.mp ha
    subst haeq
    simp only at hab haw
    subst hab
    subst haw
    constructor
    · intro hempty
      simp [hempty]
    · intro hne
      have : (weekRows df b2 w2).isEmpty = false := by
        simpa [List.isEmpty_iff] using hne
      simp [this]

/-- Witness for C6 on dfC6, building A, week 1: the empty middle bucket is
in the emitted range (between the week-0 and week-2 rows), occurs exactly
once, and is the zero/null placeholder row. -/
theorem C6_witness :
    ((calculate_weekly_aggregates dfC6).snd.countP
        (fun a => a.building == "A" && a.week == 1) =
      if 1 ∈ weeksOf dfC6 "A" then 1 else 0) ∧
    (1 ∈ weeksOf dfC6 "A" ↔
      (∃ r1 ∈ rowsOf dfC6 "A", weekOf r1.timestamp ≤ 1) ∧
      ∃ r2 ∈ rowsOf dfC6 "A", 1 ≤ weekOf r2.timestamp) ∧
    ∀ a ∈ (calculate_weekly_aggregates dfC6).snd,
      a.building = "A" → a.week = 1 →
      (weekRows dfC6 "A" 1 = [] →
        a = ⟨"A", 1, 0, none, none, none⟩) ∧
      (weekRows dfC6 "A" 1 ≠ [] →
        a.total = (weekRows dfC6 "A" 1).sum ∧
        a.mean = some ((weekRows dfC6 "A" 1).sum / (weekRows dfC6 "A" 1).length) ∧
        a.max = (weekRows dfC6 "A" 1).max? ∧
        a.min = (weekRows dfC6 "A" 1).min?) :=
  C6_weekly dfC6 "A" 1 (by decide)

/-- Splitting the kwh sum of a frame along a Boolean predicate on rows. -/
theorem sum_map_filter_split (l : List Row) (p : Row → Bool) :
    ((l.filter p).map Row.kwh).sum +
      ((l.filter fun r => !(p r)).map Row.kwh).sum = (l.map Row.kwh).sum := by
  induction l with
  | nil => simp
  | cons x xs ih =>
      by_cases hx : p x = true
      · rw [List.filter_cons_of_pos hx, List.filter_cons_of_neg (by simp [hx]),
          List.map_cons, List.sum_cons, List.map_cons, List.sum_cons, add_assoc,
          ih]
      · rw [List.filter_cons_of_neg (by simp [hx]),
          List.filter_cons_of_pos (by simp [hx]), List.map_cons, List.sum_cons,
          List.map_cons, List.sum_cons, add_left_comm, ih]

/-- Summing the per-building kwh sums over duplicate-free covering keys
gives the kwh sum of the whole frame. -/
theorem sum_partition (keys : List String) (l : List Row)
    (hnd : keys.Nodup) (hcov : ∀ r ∈ l, r.building ∈ keys) :
    (keys.map fun b => ((rowsOf l b).map Row.kwh).sum).sum =
      (l.map Row.kwh).sum := by
  induction keys generalizing l with
  | nil =>
      cases l with
      | nil => rfl
      | cons r rs =>
          exact absurd (hcov r (List.mem_cons_self r rs)) (List.not_mem_nil _)
  | cons b ks ih =>
      obtain ⟨hb, hnd2⟩ := List.nodup_cons.mp hnd
      rw [List.map_cons, List.sum_cons]
      have hrest : ∀ b2 ∈ ks,
          rowsOf l b2 =
            rowsOf (l.filter fun r => !(decide (r.building = b))) b2 := by
        intro b2 hb2
        unfold rowsOf
        rw [List.filter_filter]
        apply List.filter_congr
        intro r hr
        have hb2b : ¬(b2 = b) := fun hc => hb (hc ▸ hb2)
        by_cases hcase : r.building = b2
        · simp [hcase, hb2b]
        · simp [hcase]
      have hmap : (ks.map fun b2 => ((rowsOf l b2).map Row.kwh).sum) =
          (ks.map fun b2 =>
            ((rowsOf (l.filter fun r => !(decide (r.building = b))) b2).map
                Row.kwh).sum) := by
        apply List.map_congr_left
        intro b2 hb2
        rw [hrest b2 hb2]
      rw [hmap,
        ih (l.filter fun r => !(decide (r.building = b))) hnd2 ?cover]
      case cover =>
        intro r hr
        obtain ⟨hrl, hrb⟩ := List.mem_filter.mp hr
        rcases List.mem_cons.mp (hcov r hrl) with hcase | hcase
        · rw [hcase] at hrb
          simp at hrb
        · exact hcase
      exact sum_map_filter_split l fun r => decide (r.building = b)

/-- Readings of a Building populated from the canonical dataset are exactly
the building's rows, converted, in frame order. -/
theorem buildingFromData_readings (df : List Row) (b : String) :
    (buildingFromData df b).meter_readings =
      (rowsOf df b).map fun r => MeterReading.mk r.timestamp r.kwh := by
  suffices h : ∀ (l : List Row) (bld : Building),
      (l.foldl (fun bld2 r => bld2.add_reading r.timestamp r.kwh)
          bld).meter_readings =
        bld.meter_readings ++ l.map fun r => MeterReading.mk r.timestamp r.kwh by
    unfold buildingFromData
    rw [h]
    rfl
  intro l
  induction l with
  | nil =>
      intro bld
      simp
  | cons x xs ih =>
      intro bld
      rw [List.foldl_cons, ih, List.map_cons]
      simp [Building.add_reading]

/-- Claim C8: on a non-empty canonical dataset, each building-summary row's
total_kwh equals the kwh sum over that building's rows, which equals the
total consumption of the Building (Meter Record) populated from those rows;
and the per-building totals sum to the kwh sum of the whole dataset. -/
theorem C8_sum_invariants (df : List Row) (_hne : df ≠ []) :
    (∀ s ∈ (building_wise_summary df).snd,
      s.total_kwh = ((rowsOf df s.building).map Row.kwh).sum ∧
      s.total_kwh =
        (buildingFromData df s.building).calculate_total_consumption) ∧
    ((building_wise_summary df).snd.map BuildingSummary.total_kwh).sum =
      (df.map Row.kwh).sum := by
  constructor
  · intro s hs
    unfold building_wise_summary at hs
    simp only [List.mem_map] at hs
    obtain ⟨b, hbb, rfl⟩ := hs
    refine ⟨rfl, ?_⟩
    unfold Building.calculate_total_consumption
    rw [buildingFromData_readings, List.map_map]
    rfl
  · unfold building_wise_summary
    simp only [List.map_map]
    have hfun : (BuildingSummary.total_kwh ∘ fun b =>
        ({ building := b, total_kwh := ((rowsOf df b).map Row.kwh).sum,
           mean_kwh := ((rowsOf df b).map Row.kwh).sum /
             ((rowsOf df b).map Row.kwh).length,
           max_kwh := ((rowsOf df b).map Row.kwh).max?,
           min_kwh := ((rowsOf df b).map Row.kwh).min?,
           readings_count := ((rowsOf df b).map Row.kwh).length } :
          BuildingSummary)) =
        fun b => ((rowsOf df b).map Row.kwh).sum := rfl
    rw [hfun]
    exact sum_partition (buildingsOf df) df (buildingsOf_nodup df)
      fun r hr => mem_buildingsOf.mpr ⟨r, hr, rfl⟩

/-- Witness for C8 on the two-building frame dfC8. -/
theorem C8_witness :
    (∀ s ∈ (building_wise_summary dfC8).snd,
      s.total_kwh = ((rowsOf dfC8 s.building).map Row.kwh).sum ∧
      s.total_kwh =
        (buildingFromData dfC8 s.building).calculate_total_consumption) ∧
    ((building_wise_summary dfC8).snd.map BuildingSummary.total_kwh).sum =
      (dfC8.map Row.kwh).sum :=
  C8_sum_invariants dfC8 (by decide)
